import Mathlib

set_option maxRecDepth 40000

/-!
Shallow embedding of `src/system/updated/casync/format.py` (openpilot casync
decoder) and proofs about it.

Conventions of the embedding:
* Python `bytes` values are `List Nat` (each element intended `< 256`);
  little-endian 64-bit decoding is `leU64`.
* `io.BytesIO` is the `Cursor` structure: the underlying byte list plus a
  position.  `Cursor.read n` returns up to `n` bytes and advances the
  position by the number of bytes actually returned, exactly like
  `io.BytesIO.read`.
* Python exceptions are modelled by the `Res` result type:
  `struct.error` raised by `struct.unpack` on a short read is
  `FormatError.Truncated`, the `assert magic == MAGIC_TYPE` failure is
  `FormatError.UnexpectedMagic`, the `AttributeError` raised by accessing
  `.size` on `None` is `FormatError.NoneTypeError`, and the
  `UnicodeDecodeError` raised by `filename.decode("utf-8")` on
  undecodable name bytes is `FormatError.UnicodeDecodeError`.
  `Res.hang` marks the one place the Python code loops forever
  (`CAFilename.from_buffer` reading at end of file).
* The `str` produced by `filename.decode("utf-8")` is represented by its
  UTF-8 byte sequence (`filename : List Nat`); the decode itself is
  modelled by the strict validity check `utf8Valid`, which raises
  (`UnicodeDecodeError`) exactly when Python's strict decoder does.
-/

/-- Constant from format.py line 12 (defined there but never used by the code). -/
def CA_FORMAT_TABLE_TAIL_MARKER : Nat := 0xe75b9e112f17417

/-- Constant from format.py line 13. -/
def FLAGS : Nat := 0xb000000000000000

/-- Constant from format.py line 15. -/
def CA_HEADER_LEN : Nat := 32

/-- Constant from format.py line 16. -/
def CA_TABLE_HEADER_LEN : Nat := 16

/-- Constant from format.py line 17. -/
def CA_TABLE_ENTRY_LEN : Nat := 40

/-- Constant from format.py line 18. -/
def CA_TABLE_MIN_LEN : Nat := CA_TABLE_HEADER_LEN + CA_TABLE_ENTRY_LEN

/-- Magic constant from format.py line 20. -/
def CA_FORMAT_INDEX : Nat := 0x96824d9c7b129ff9

/-- Magic constant from format.py line 21. -/
def CA_FORMAT_TABLE : Nat := 0xe75b9e112f17417d

/-- Magic constant from format.py line 22. -/
def CA_FORMAT_ENTRY : Nat := 0x1396fabcea5bbb51

/-- Magic constant from format.py line 23. -/
def CA_FORMAT_GOODBYE : Nat := 0xdfd35c5e8327c403

/-- Magic constant from format.py line 24. -/
def CA_FORMAT_FILENAME : Nat := 0x6dbb6ebcb3161f0b

/-- Magic constant from format.py line 25. -/
def CA_FORMAT_PAYLOAD : Nat := 0x8b9e1d93d6dcffc9

/-- Constant from format.py line 27. -/
def CA_MAX_FILENAME_SIZE : Nat := 256

/-- Model of an `io.BytesIO` buffer: the bytes plus the current position. -/
structure Cursor where
  data : List Nat
  pos : Nat
deriving DecidableEq

/-- Model of `io.BytesIO.read n`: return up to `n` bytes starting at the
current position and advance the position by the number of bytes actually
returned (fewer than `n` when the buffer ends early; no error, no padding). -/
def Cursor.read (b : Cursor) (n : Nat) : List Nat × Cursor :=
  let bs := (b.data.drop b.pos).take n
  (bs, ⟨b.data, b.pos + bs.length⟩)

/-- Little-endian interpretation of a byte list, first byte least
significant: the value `struct.unpack` gives to a `<Q` field when applied
to the 8 bytes of the field. -/
def leU64 : List Nat → Nat
  | [] => 0
  | c :: cs => c + 256 * leU64 cs

/-- Little-endian 8-byte encoding of `n` (the low 64 bits), used to build
concrete test buffers. -/
def le64 (n : Nat) : List Nat :=
  [n % 256, n / 256 % 256, n / 256 ^ 2 % 256, n / 256 ^ 3 % 256,
   n / 256 ^ 4 % 256, n / 256 ^ 5 % 256, n / 256 ^ 6 % 256, n / 256 ^ 7 % 256]

/-- Error taxonomy of the decoder.  `Truncated` models the `struct.error`
raised when `struct.unpack` receives fewer bytes than its format needs;
`UnexpectedMagic` models the failed `assert magic == MAGIC_TYPE`;
`NoneTypeError` models the `AttributeError` raised by `payload.size` when
the payload header decoded to `None`; `UnicodeDecodeError` models the
exception raised by `filename.decode("utf-8")` on name bytes that are not
valid UTF-8. -/
inductive FormatError where
  | Truncated
  | UnexpectedMagic
  | NoneTypeError
  | UnicodeDecodeError
deriving DecidableEq

/-- Result of running a piece of the Python decoder: a value, a raised
exception, or divergence (`hang`, for the one infinite loop the code can
enter). -/
inductive Res (α : Type) where
  | ok : α → Res α
  | err : FormatError → Res α
  | hang : Res α
deriving DecidableEq

/-- Model of `struct.unpack(fmt, b.read(n))` for a fixed-width format of
`n` bytes: read up to `n` bytes, then fail with `Truncated` (Python:
`struct.error`) unless exactly `n` bytes were obtained. -/
def readStruct (b : Cursor) (n : Nat) : Res (List Nat × Cursor) :=
  let r := b.read n
  if r.1.length = n then .ok r else .err .Truncated

/-- The 16-byte structural header `(size, type)` of format.py lines 29-32
(`CAFormatHeader`, fields `size` and `type` in source order, i.e. the
decoded `length` and `magic`). -/
structure CAFormatHeader where
  size : Nat
  type : Nat
deriving DecidableEq

/-- Embedding of `MagicCAFormatHeader.from_buffer` (format.py lines 40-51),
parameterised by the `MAGIC_TYPE` the generated class was created with:
read 16 bytes as two little-endian u64 (`length`, `magic`); if `magic`
equals `CA_FORMAT_GOODBYE` return `None`; otherwise `assert magic ==
MAGIC_TYPE` (failure modelled as `UnexpectedMagic`) and return the header. -/
def MagicCAFormatHeader.from_buffer (MAGIC_TYPE : Nat) (b : Cursor) :
    Res (Option CAFormatHeader × Cursor) :=
  match readStruct b CA_TABLE_HEADER_LEN with
  | .err e => .err e
  | .hang => .hang
  | .ok (bs, b) =>
    let length := leU64 (bs.take 8)
    let magic := leU64 (bs.drop 8)
    if magic = CA_FORMAT_GOODBYE then .ok (none, b)
    else if magic = MAGIC_TYPE then .ok (some ⟨length, magic⟩, b)
    else .err .UnexpectedMagic

/-- The specialised header class `CAIndexHeader = create_header_with_type(CA_FORMAT_INDEX)`
of format.py line 54, represented by its `from_buffer` static method. -/
def CAIndexHeader.from_buffer : Cursor → Res (Option CAFormatHeader × Cursor) :=
  MagicCAFormatHeader.from_buffer CA_FORMAT_INDEX

/-- The specialised header class of format.py line 55. -/
def CATableHeader.from_buffer : Cursor → Res (Option CAFormatHeader × Cursor) :=
  MagicCAFormatHeader.from_buffer CA_FORMAT_TABLE

/-- The specialised header class of format.py line 56. -/
def CAEntryHeader.from_buffer : Cursor → Res (Option CAFormatHeader × Cursor) :=
  MagicCAFormatHeader.from_buffer CA_FORMAT_ENTRY

/-- The specialised header class of format.py line 57. -/
def CAFilenameHeader.from_buffer : Cursor → Res (Option CAFormatHeader × Cursor) :=
  MagicCAFormatHeader.from_buffer CA_FORMAT_FILENAME

/-- The specialised header class of format.py line 58. -/
def CAPayloadHeader.from_buffer : Cursor → Res (Option CAFormatHeader × Cursor) :=
  MagicCAFormatHeader.from_buffer CA_FORMAT_PAYLOAD

/-- Chunk descriptor of format.py lines 61-65.  `offset` and `length` are
`Int` because Python integers are unbounded and `length = new_offset -
last_offset` can be negative when the stored cumulative offsets are not
increasing (the code performs no check). -/
structure CAChunk where
  sha : List Nat
  offset : Int
  length : Int
deriving DecidableEq

/-- Embedding of `CAChunk.from_buffer` (format.py lines 67-74): read an
8-byte little-endian cumulative offset with `struct.unpack` (short read
raises, i.e. `Truncated`), then read 32 hash bytes with a plain `b.read`
(which silently returns fewer at end of buffer), and build the descriptor
with `offset = last_offset` and `length = new_offset - last_offset`. -/
def CAChunk.from_buffer (b : Cursor) (last_offset : Int) : Res (CAChunk × Cursor) :=
  match readStruct b 8 with
  | .err e => .err e
  | .hang => .hang
  | .ok (obs, b) =>
    let new_offset : Int := (leU64 obs : Nat)
    let r := b.read 32
    .ok (⟨r.1, last_offset, new_offset - last_offset⟩, r.2)

/-- Index preamble of format.py lines 77-83: the index header followed by
four little-endian u64 fields. -/
structure CaFormatIndex where
  header : Option CAFormatHeader
  flags : Nat
  chunk_size_min : Nat
  chunk_size_avg : Nat
  chunk_size_max : Nat
deriving DecidableEq

/-- Embedding of `CaFormatIndex.from_buffer` (format.py lines 85-89): read
the index header, then `struct.unpack("<QQQQ", b.read(CA_HEADER_LEN))`. -/
def CaFormatIndex.from_buffer (b : Cursor) : Res (CaFormatIndex × Cursor) :=
  match CAIndexHeader.from_buffer b with
  | .err e => .err e
  | .hang => .hang
  | .ok (header, b) =>
    match readStruct b CA_HEADER_LEN with
    | .err e => .err e
    | .hang => .hang
    | .ok (bs, b) =>
      .ok (⟨header, leU64 (bs.take 8), leU64 ((bs.drop 8).take 8),
            leU64 ((bs.drop 16).take 8), leU64 ((bs.drop 24).take 8)⟩, b)

/-- The chunk list of format.py lines 92-94. -/
structure CAIndex where
  chunks : List CAChunk
deriving DecidableEq

/-- The chunk-reading loop of `CAIndex.from_buffer` (format.py lines
107-113): `num` iterations, each reading one chunk at the running
cumulative offset and advancing the offset by the chunk's length (so the
next call's `last_offset` is exactly the previous entry's stored
cumulative offset). -/
def readChunks : Nat → Int → Cursor → Res (List CAChunk × Cursor)
  | 0, _, b => .ok ([], b)
  | n + 1, offset, b =>
    match CAChunk.from_buffer b offset with
    | .err e => .err e
    | .hang => .hang
    | .ok (chunk, b) =>
      match readChunks n (offset + chunk.length) b with
      | .err e => .err e
      | .hang => .hang
      | .ok (rest, b) => .ok (chunk :: rest, b)

/-- The chunk-count computation of format.py line 105, `num_chunks =
(length - CA_HEADER_LEN - CA_TABLE_MIN_LEN) // CA_TABLE_ENTRY_LEN`, with
Python's floor division (`Int.fdiv`) over unbounded integers. -/
def num_chunksOf (length : Nat) : Int :=
  ((length : Int) - (CA_HEADER_LEN : Int) - (CA_TABLE_MIN_LEN : Int)).fdiv
    (CA_TABLE_ENTRY_LEN : Int)

/-- Embedding of `CAIndex.from_buffer` (format.py lines 96-115): measure the
total buffer length (the `seek`/`tell` pair), rewind to 0, read the index
preamble and the table header, compute `num_chunks` (format.py line 105),
and read that many chunk entries starting at offset 0 (`range` of a
negative count is empty, hence `Int.toNat`). -/
def CAIndex.from_buffer (b : Cursor) : Res (CAIndex × Cursor) :=
  let length := b.data.length
  let b : Cursor := ⟨b.data, 0⟩
  match CaFormatIndex.from_buffer b with
  | .err e => .err e
  | .hang => .hang
  | .ok (_, b) =>
    match CATableHeader.from_buffer b with
    | .err e => .err e
    | .hang => .hang
    | .ok (_, b) =>
      match readChunks (num_chunksOf length).toNat 0 b with
      | .err e => .err e
      | .hang => .hang
      | .ok (chunks, b) => .ok (⟨chunks⟩, b)

/-- Filename record of format.py lines 126-129.  The Python field is a
`str` obtained by `filename.decode("utf-8")`; the embedding keeps the raw
bytes. -/
structure CAFilename where
  header : CAFormatHeader
  filename : List Nat
deriving DecidableEq

/-- The byte-collecting loop of `CAFilename.from_buffer` (format.py lines
137-143): while fewer than `CA_MAX_FILENAME_SIZE` bytes are collected,
read one byte; a zero byte stops the loop; at end of buffer `b.read(1)`
returns the empty string forever, so the Python loop never terminates
(modelled as `Res.hang`).  The `fuel` argument only makes the recursion
structural: each iteration grows `acc` by one byte and the loop returns
as soon as `acc` reaches 256 bytes, so the initial fuel of 257 supplied by
`CAFilename.from_buffer` can never be exhausted and the `fuel = 0` branch
is unreachable from that entry point. -/
def caFilenameLoop : Nat → Cursor → List Nat → Res (List Nat × Cursor)
  | 0, _, _ => .hang
  | fuel + 1, b, acc =>
    if acc.length < CA_MAX_FILENAME_SIZE then
      match b.read 1 with
      | ([c], b') =>
        if c = 0 then .ok (acc, b') else caFilenameLoop fuel b' (acc ++ [c])
      | _ => .hang
    else .ok (acc, b)

/-- Whether `c` is a UTF-8 continuation byte (0x80-0xBF). -/
def utf8Cont (c : Nat) : Bool := 128 ≤ c && c ≤ 191

/-- Strict UTF-8 validity of a byte sequence, exactly as checked by
Python's `bytes.decode("utf-8")` (format.py line 145): ASCII bytes
(0x00-0x7F) stand alone; 0xC2-0xDF open a 2-byte sequence; 0xE0,
0xE1-0xEC, 0xED and 0xEE-0xEF open 3-byte sequences whose restricted
second byte excludes overlong encodings (0xE0 needs 0xA0-0xBF) and the
surrogate range (0xED needs 0x80-0x9F); 0xF0, 0xF1-0xF3 and 0xF4 open
4-byte sequences restricted to U+10000..U+10FFFF (0xF0 needs 0x90-0xBF,
0xF4 needs 0x80-0x8F); every other leading byte (0x80-0xC1, 0xF5-0xFF)
or malformed continuation is invalid and raises `UnicodeDecodeError`. -/
def utf8Valid : List Nat → Bool
  | [] => true
  | c :: cs =>
    if c ≤ 127 then utf8Valid cs
    else if 194 ≤ c ∧ c ≤ 223 then
      match cs with
      | c1 :: cs1 => utf8Cont c1 && utf8Valid cs1
      | [] => false
    else if c = 224 then
      match cs with
      | c1 :: c2 :: cs2 =>
        (decide (160 ≤ c1 ∧ c1 ≤ 191)) && utf8Cont c2 && utf8Valid cs2
      | _ => false
    else if (225 ≤ c ∧ c ≤ 236) ∨ c = 238 ∨ c = 239 then
      match cs with
      | c1 :: c2 :: cs2 => utf8Cont c1 && utf8Cont c2 && utf8Valid cs2
      | _ => false
    else if c = 237 then
      match cs with
      | c1 :: c2 :: cs2 =>
        (decide (128 ≤ c1 ∧ c1 ≤ 159)) && utf8Cont c2 && utf8Valid cs2
      | _ => false
    else if c = 240 then
      match cs with
      | c1 :: c2 :: c3 :: cs3 =>
        (decide (144 ≤ c1 ∧ c1 ≤ 191)) && utf8Cont c2 && utf8Cont c3 && utf8Valid cs3
      | _ => false
    else if 241 ≤ c ∧ c ≤ 243 then
      match cs with
      | c1 :: c2 :: c3 :: cs3 =>
        utf8Cont c1 && utf8Cont c2 && utf8Cont c3 && utf8Valid cs3
      | _ => false
    else if c = 244 then
      match cs with
      | c1 :: c2 :: c3 :: cs3 =>
        (decide (128 ≤ c1 ∧ c1 ≤ 143)) && utf8Cont c2 && utf8Cont c3 && utf8Valid cs3
      | _ => false
    else false

/-- Embedding of `CAFilename.from_buffer` (format.py lines 131-145): read a
filename header (`None` header, i.e. goodbye magic, yields `None`), then
collect filename bytes up to a zero terminator or the 256-byte cap, and
finally run `filename.decode("utf-8")`, which raises
`UnicodeDecodeError` when the collected bytes are not strict UTF-8. -/
def CAFilename.from_buffer (b : Cursor) : Res (Option CAFilename × Cursor) :=
  match CAFilenameHeader.from_buffer b with
  | .err e => .err e
  | .hang => .hang
  | .ok (none, b) => .ok (none, b)
  | .ok (some header, b) =>
    match caFilenameLoop (CA_MAX_FILENAME_SIZE + 1) b [] with
    | .err e => .err e
    | .hang => .hang
    | .ok (filename, b) =>
      if utf8Valid filename then .ok (some ⟨header, filename⟩, b)
      else .err .UnicodeDecodeError

/-- Entry record of format.py lines 148-156.  The header is `Option`
because `CAEntryHeader.from_buffer` returns `None` on the goodbye magic
and `CAEntry.from_buffer` stores the result unchecked. -/
structure CAEntry where
  header : Option CAFormatHeader
  feature_flags : Nat
  mode : Nat
  flags : Nat
  uid : Nat
  gid : Nat
  mtime : Nat
deriving DecidableEq

/-- Embedding of `CAEntry.from_buffer` (format.py lines 158-161): read an
entry header (possibly `None`), then `struct.unpack("<QQQQQQ", b.read(48))`
for the six metadata fields. -/
def CAEntry.from_buffer (b : Cursor) : Res (CAEntry × Cursor) :=
  match CAEntryHeader.from_buffer b with
  | .err e => .err e
  | .hang => .hang
  | .ok (entry, b) =>
    match readStruct b (8 * 6) with
    | .err e => .err e
    | .hang => .hang
    | .ok (bs, b) =>
      .ok (⟨entry, leU64 (bs.take 8), leU64 ((bs.drop 8).take 8),
            leU64 ((bs.drop 16).take 8), leU64 ((bs.drop 24).take 8),
            leU64 ((bs.drop 32).take 8), leU64 ((bs.drop 40).take 8)⟩, b)

/-- Archive-level wrapper of format.py lines 164-166. -/
structure CAArchive where
  entry : CAEntry
deriving DecidableEq

/-- Embedding of `CAArchive.from_buffer` (format.py lines 168-171). -/
def CAArchive.from_buffer (b : Cursor) : Res (CAArchive × Cursor) :=
  match CAEntry.from_buffer b with
  | .err e => .err e
  | .hang => .hang
  | .ok (entry, b) => .ok (⟨entry⟩, b)

/-- File record of format.py lines 174-177. -/
structure CAFile where
  filename : CAFilename
  data : List Nat
deriving DecidableEq

/-- Embedding of `CAFile.from_bytes` (format.py lines 179-189): read a
filename (a `None` filename, i.e. goodbye magic at the filename position,
ends the file loop), an entry (discarded), and a payload header, then
`b.read(payload.size - 16)` for the data.  When `payload.size < 16` the
Python read count is negative and `io.BytesIO.read` returns the whole
remainder; a `None` payload header makes `payload.size` raise
`AttributeError` (`NoneTypeError`).  The plain `b.read` silently returns
fewer than `payload.size - 16` bytes when the buffer ends early. -/
def CAFile.from_bytes (b : Cursor) : Res (Option CAFile × Cursor) :=
  match CAFilename.from_buffer b with
  | .err e => .err e
  | .hang => .hang
  | .ok (none, b) => .ok (none, b)
  | .ok (some filename, b) =>
    match CAArchive.from_buffer b with
    | .err e => .err e
    | .hang => .hang
    | .ok (_, b) =>
      match CAPayloadHeader.from_buffer b with
      | .err e => .err e
      | .hang => .hang
      | .ok (none, _) => .err .NoneTypeError
      | .ok (some payload, b) =>
        let r :=
          if payload.size < 16 then b.read (b.data.length - b.pos)
          else b.read (payload.size - 16)
        .ok (some ⟨filename, r.1⟩, r.2)

/-- Archive of format.py lines 192-195. -/
structure CATar where
  archive : CAArchive
  files : List CAFile
deriving DecidableEq

/-- The `while True` file loop of `CATar.from_bytes` (format.py lines
202-206), with explicit fuel.  Every successful `CAFile.from_bytes` call
consumes at least the 16 filename-header bytes, so fuel
`b.data.length + 1` (as supplied by `CATar.from_bytes`) can never run out
on inputs where the Python loop terminates; `fuel = 0` returns the
divergence marker. -/
def catarLoop : Nat → Cursor → Res (List CAFile × Cursor)
  | 0, _ => .hang
  | fuel + 1, b =>
    match CAFile.from_bytes b with
    | .err e => .err e
    | .hang => .hang
    | .ok (none, b) => .ok ([], b)
    | .ok (some file, b) =>
      match catarLoop fuel b with
      | .err e => .err e
      | .hang => .hang
      | .ok (files, b) => .ok (file :: files, b)

/-- Embedding of `CATar.from_bytes` (format.py lines 197-209): read the
archive-level entry, then files until `CAFile.from_bytes` returns `None`. -/
def CATar.from_bytes (b : Cursor) : Res (CATar × Cursor) :=
  match CAArchive.from_buffer b with
  | .err e => .err e
  | .hang => .hang
  | .ok (archive, b) =>
    match catarLoop (b.data.length + 1) b with
    | .err e => .err e
    | .hang => .hang
    | .ok (files, b) => .ok (⟨archive, files⟩, b)

/-- Embedding of the reassembly expression of format.py line 221,
`b"".join(chunk_reader.read(chunk) for chunk in caidx.chunks)`, with the
chunk-store collaborator abstracted as `resolve` (the `reader.py`
collaborator is outside this core per the specification). -/
def reassemble (resolve : CAChunk → List Nat) (chunks : List CAChunk) : List Nat :=
  (chunks.map resolve).flatten

/-- Embedding of `parse_caidx` (format.py lines 216-225) minus the file
system access: decode the index, reassemble the stream through `resolve`,
and decode the archive. -/
def parse_caidx (resolve : CAChunk → List Nat) (caidx : List Nat) : Res CATar :=
  match CAIndex.from_buffer ⟨caidx, 0⟩ with
  | .err e => .err e
  | .hang => .hang
  | .ok (index, _) =>
    match CATar.from_bytes ⟨reassemble resolve index.chunks, 0⟩ with
    | .err e => .err e
    | .hang => .hang
    | .ok (tar, _) => .ok tar

/-- Cumulative-offset chain: `chainFrom off cs` says the descriptors in
`cs` start at cumulative offset `off` and each next descriptor starts
where the previous one ends.  This is the shape `readChunks` produces. -/
def chainFrom : Int → List CAChunk → Prop
  | _, [] => True
  | off, c :: cs => c.offset = off ∧ chainFrom (off + c.length) cs

/-! Concrete test buffers used by witnesses and counterexamples. -/

/-- An all-zero 32-byte hash value. -/
def sha0 : List Nat := List.replicate 32 0

/-- A 16-byte header whose magic is the unused tail marker
`CA_FORMAT_TABLE_TAIL_MARKER`. -/
def tailHdrBuf : List Nat := le64 0 ++ le64 CA_FORMAT_TABLE_TAIL_MARKER

/-- A 16-byte header whose magic is `CA_FORMAT_GOODBYE`. -/
def goodbyeHdrBuf : List Nat := le64 5 ++ le64 CA_FORMAT_GOODBYE

/-- A 16-byte header carrying the payload magic (to be read where the
filename magic is expected). -/
def payloadHdrBuf : List Nat := le64 5 ++ le64 CA_FORMAT_PAYLOAD

/-- A 168-byte index buffer with two table entries whose cumulative
offsets are 16 and 40 (so chunk lengths 16 and 24), padded to the size
the length-derived chunk-count formula expects. -/
def idxBufGood : List Nat :=
  le64 200 ++ le64 CA_FORMAT_INDEX ++ List.replicate 32 0 ++
  le64 16 ++ le64 CA_FORMAT_TABLE ++
  (le64 16 ++ sha0) ++ (le64 40 ++ sha0) ++ List.replicate 24 0

/-- A 168-byte index buffer like `idxBufGood` but whose two table entries
both carry cumulative offset 0 (degenerate, yet accepted by the decoder). -/
def idxBufBad : List Nat :=
  le64 200 ++ le64 CA_FORMAT_INDEX ++ List.replicate 32 0 ++
  le64 16 ++ le64 CA_FORMAT_TABLE ++
  (le64 0 ++ sha0) ++ (le64 0 ++ sha0) ++ List.replicate 24 0

/-- A goodbye-magic header followed by 48 metadata bytes encoding the six
values 1..6 (for the entry-position goodbye scenario). -/
def entryGoodbyeBuf : List Nat :=
  le64 0 ++ le64 CA_FORMAT_GOODBYE ++
  (le64 1 ++ (le64 2 ++ (le64 3 ++ (le64 4 ++ (le64 5 ++ le64 6)))))

/-- A filename record: header, the two bytes "ab", a zero terminator, and
two trailing bytes. -/
def filenameBufTerm : List Nat :=
  le64 0 ++ le64 CA_FORMAT_FILENAME ++ ([97, 98] ++ 0 :: [7, 7])

/-- A filename record whose name region is 256 non-zero bytes with no
terminator. -/
def filenameBufCap : List Nat :=
  le64 0 ++ le64 CA_FORMAT_FILENAME ++ (List.replicate 256 97 ++ [7])

/-- A filename record whose single name byte is 0xFF (never valid in
UTF-8), followed by a zero terminator. -/
def filenameBufBad : List Nat :=
  le64 0 ++ le64 CA_FORMAT_FILENAME ++ [255, 0]

/-- A complete single-file record whose payload header declares
`size = 100` (so 84 data bytes) but that is followed by only 5 bytes. -/
def fileBufShort : List Nat :=
  le64 0 ++ le64 CA_FORMAT_FILENAME ++ [97, 0] ++
  le64 0 ++ le64 CA_FORMAT_ENTRY ++ List.replicate 48 0 ++
  le64 100 ++ le64 CA_FORMAT_PAYLOAD ++ [1, 2, 3, 4, 5]

/-- A complete single-file record whose payload header declares
`size = 21` and that is followed by exactly 5 data bytes. -/
def fileBufExact : List Nat :=
  le64 0 ++ le64 CA_FORMAT_FILENAME ++ [97, 0] ++
  le64 0 ++ le64 CA_FORMAT_ENTRY ++ List.replicate 48 0 ++
  le64 21 ++ le64 CA_FORMAT_PAYLOAD ++ [9, 9, 9, 9, 9]

/-- The chunk list decoded from `idxBufGood`: contiguous descriptors with
offsets 0, 16 and lengths 16, 24. -/
def chunksGood : List CAChunk := [⟨sha0, 0, 16⟩, ⟨sha0, 16, 24⟩]

/-- A chunk resolver that returns the declared number of bytes (all 7),
used to exercise the reassembly path. -/
def resolveFill (c : CAChunk) : List Nat := List.replicate c.length.toNat 7

/-! Helper lemmas about the byte-level primitives. -/

theorem le64_length (n : Nat) : (le64 n).length = 8 := rfl

theorem leU64_le64 {n : Nat} (h : n < 2 ^ 64) : leU64 (le64 n) = n := by
  simp only [le64, leU64]
  simp only [pow_succ, pow_zero, one_mul] at *
  omega

theorem read_of_shape {b : Cursor} {x rest : List Nat} {n : Nat}
    (hb : b.data.drop b.pos = x ++ rest) (hx : x.length = n) :
    b.read n = (x, ⟨b.data, b.pos + n⟩) := by
  simp only [Cursor.read, hb, ← hx, List.take_left]

theorem drop_of_shape {l x rest : List Nat} {p n : Nat}
    (hb : l.drop p = x ++ rest) (hx : x.length = n) :
    l.drop (p + n) = rest := by
  have : (l.drop p).drop n = rest := by
    simp only [hb, ← hx, List.drop_left]
  simpa [List.drop_drop, Nat.add_comm] using this

theorem readStruct_ok {b : Cursor} {n : Nat} {bs : List Nat} {b' : Cursor}
    (h : readStruct b n = .ok (bs, b')) :
    bs.length = n ∧ b'.data = b.data ∧ b'.pos = b.pos + n ∧ n ≤ b.data.length - b.pos := by
  simp only [readStruct, Cursor.read] at h
  split at h
  case isTrue hlen =>
    simp only [List.length_take, List.length_drop] at hlen
    cases h
    simp only [List.length_take, List.length_drop]
    refine ⟨?_, True.intro, ?_, ?_⟩ <;> omega
  case isFalse => cases h

theorem readStruct_of_shape {b : Cursor} {x rest : List Nat} {n : Nat}
    (hb : b.data.drop b.pos = x ++ rest) (hx : x.length = n) :
    readStruct b n = .ok (x, ⟨b.data, b.pos + n⟩) := by
  simp [readStruct, read_of_shape hb hx, hx]

theorem readStruct_short {b : Cursor} {n : Nat} (hn : 0 < n)
    (h : b.data.length < b.pos + n) :
    readStruct b n = .err .Truncated := by
  have hlen : ((b.data.drop b.pos).take n).length ≠ n := by
    simp only [List.length_take, List.length_drop]
    omega
  simp [readStruct, Cursor.read, hlen]
  omega

theorem header_shape {E L M : Nat} {rest : List Nat} {b : Cursor}
    (hb : b.data.drop b.pos = le64 L ++ le64 M ++ rest)
    (hL : L < 2 ^ 64) (hM : M < 2 ^ 64) :
    MagicCAFormatHeader.from_buffer E b =
      if M = CA_FORMAT_GOODBYE then .ok (none, ⟨b.data, b.pos + 16⟩)
      else if M = E then .ok (some ⟨L, M⟩, ⟨b.data, b.pos + 16⟩)
      else .err .UnexpectedMagic := by
  have hshape : b.data.drop b.pos = (le64 L ++ le64 M) ++ rest := by
    rw [hb, List.append_assoc]
  have h16 : (le64 L ++ le64 M).length = 16 := by
    simp [List.length_append, le64_length]
  have hrs := readStruct_of_shape hshape h16
  have ht : (le64 L ++ le64 M).take 8 = le64 L := List.take_left' (le64_length L)
  have hd : (le64 L ++ le64 M).drop 8 = le64 M := List.drop_left' (le64_length L)
  simp only [MagicCAFormatHeader.from_buffer, CA_TABLE_HEADER_LEN, hrs, ht, hd,
    leU64_le64 hL, leU64_le64 hM]

theorem header_goodbye {E L : Nat} {rest : List Nat} {b : Cursor}
    (hb : b.data.drop b.pos = le64 L ++ le64 CA_FORMAT_GOODBYE ++ rest)
    (hL : L < 2 ^ 64) :
    MagicCAFormatHeader.from_buffer E b = .ok (none, ⟨b.data, b.pos + 16⟩) := by
  rw [header_shape hb hL (by norm_num [CA_FORMAT_GOODBYE]), if_pos rfl]

theorem header_match {E L : Nat} {rest : List Nat} {b : Cursor}
    (hb : b.data.drop b.pos = le64 L ++ le64 E ++ rest)
    (hL : L < 2 ^ 64) (hE : E < 2 ^ 64) (hne : E ≠ CA_FORMAT_GOODBYE) :
    MagicCAFormatHeader.from_buffer E b =
      .ok (some ⟨L, E⟩, ⟨b.data, b.pos + 16⟩) := by
  rw [header_shape hb hL hE, if_neg hne, if_pos rfl]

theorem header_mismatch {E L M : Nat} {rest : List Nat} {b : Cursor}
    (hb : b.data.drop b.pos = le64 L ++ le64 M ++ rest)
    (hL : L < 2 ^ 64) (hM : M < 2 ^ 64)
    (h1 : M ≠ CA_FORMAT_GOODBYE) (h2 : M ≠ E) :
    MagicCAFormatHeader.from_buffer E b = .err .UnexpectedMagic := by
  rw [header_shape hb hL hM, if_neg h1, if_neg h2]

theorem header_ok_advance {E : Nat} {b : Cursor} {r : Option CAFormatHeader} {b' : Cursor}
    (h : MagicCAFormatHeader.from_buffer E b = .ok (r, b')) :
    b'.data = b.data ∧ b'.pos = b.pos + 16 ∧ 16 ≤ b.data.length - b.pos := by
  unfold MagicCAFormatHeader.from_buffer at h
  cases hrs : readStruct b CA_TABLE_HEADER_LEN with
  | ok p =>
    obtain ⟨bs, b1⟩ := p
    simp only [hrs] at h
    have hk := readStruct_ok hrs
    simp only [CA_TABLE_HEADER_LEN] at hk
    split at h
    · cases h; exact ⟨hk.2.1, hk.2.2.1, hk.2.2.2⟩
    · split at h
      · cases h; exact ⟨hk.2.1, hk.2.2.1, hk.2.2.2⟩
      · cases h
  | err e => simp only [hrs] at h; cases h
  | hang => simp only [hrs] at h; cases h

theorem header_short {E : Nat} {b : Cursor} (h : b.data.length < b.pos + 16) :
    MagicCAFormatHeader.from_buffer E b = .err .Truncated := by
  unfold MagicCAFormatHeader.from_buffer
  rw [readStruct_short (by norm_num [CA_TABLE_HEADER_LEN])
    (by simpa [CA_TABLE_HEADER_LEN] using h)]

/-! Helper lemmas about the chunk-table loop. -/

theorem chunk_offset_eq {b : Cursor} {off : Int} {c : CAChunk} {b' : Cursor}
    (h : CAChunk.from_buffer b off = .ok (c, b')) : c.offset = off := by
  unfold CAChunk.from_buffer at h
  cases hrs : readStruct b 8 with
  | ok p =>
    obtain ⟨obs, b1⟩ := p
    simp only [hrs] at h
    cases h
    rfl
  | err e => simp only [hrs] at h; cases h
  | hang => simp only [hrs] at h; cases h

theorem chunk_advance {b : Cursor} {off : Int} {c : CAChunk} {b' : Cursor}
    (hsp : b.pos + 40 ≤ b.data.length)
    (h : CAChunk.from_buffer b off = .ok (c, b')) :
    b'.data = b.data ∧ b'.pos = b.pos + 40 := by
  unfold CAChunk.from_buffer at h
  cases hrs : readStruct b 8 with
  | ok p =>
    obtain ⟨obs, b1⟩ := p
    obtain ⟨-, hdata, hpos, hle⟩ := readStruct_ok hrs
    simp only [hrs] at h
    cases h
    simp only [Cursor.read, List.length_take, List.length_drop]
    refine ⟨hdata, ?_⟩
    rw [hdata, hpos]
    omega
  | err e => simp only [hrs] at h; cases h
  | hang => simp only [hrs] at h; cases h

theorem readChunks_chain : ∀ (n : Nat) (off : Int) (b : Cursor) (cs : List CAChunk)
    (b' : Cursor), readChunks n off b = .ok (cs, b') → chainFrom off cs := by
  intro n
  induction n with
  | zero =>
    intro off b cs b' h
    unfold readChunks at h
    cases h
    trivial
  | succ n ih =>
    intro off b cs b' h
    unfold readChunks at h
    cases hc : CAChunk.from_buffer b off with
    | ok p =>
      obtain ⟨c, b1⟩ := p
      simp only [hc] at h
      cases hr : readChunks n (off + c.length) b1 with
      | ok q =>
        obtain ⟨rest, b2⟩ := q
        simp only [hr] at h
        cases h
        exact ⟨chunk_offset_eq hc, ih _ _ _ _ hr⟩
      | err e => simp only [hr] at h; cases h
      | hang => simp only [hr] at h; cases h
    | err e => simp only [hc] at h; cases h
    | hang => simp only [hc] at h; cases h

theorem readChunks_advance : ∀ (n : Nat) (off : Int) (b : Cursor) (cs : List CAChunk)
    (b' : Cursor), b.pos + 40 * n ≤ b.data.length →
    readChunks n off b = .ok (cs, b') →
    cs.length = n ∧ b'.data = b.data ∧ b'.pos = b.pos + 40 * n := by
  intro n
  induction n with
  | zero =>
    intro off b cs b' hsp h
    unfold readChunks at h
    cases h
    exact ⟨rfl, rfl, by omega⟩
  | succ n ih =>
    intro off b cs b' hsp h
    unfold readChunks at h
    cases hc : CAChunk.from_buffer b off with
    | ok p =>
      obtain ⟨c, b1⟩ := p
      simp only [hc] at h
      obtain ⟨hdata1, hpos1⟩ := chunk_advance (by omega) hc
      cases hr : readChunks n (off + c.length) b1 with
      | ok q =>
        obtain ⟨rest, b2⟩ := q
        simp only [hr] at h
        cases h
        obtain ⟨hlen, hdata2, hpos2⟩ := ih _ _ _ _ (by rw [hdata1, hpos1]; omega) hr
        refine ⟨by simp [hlen], by rw [hdata2, hdata1], ?_⟩
        rw [hpos2, hpos1]
        omega
      | err e => simp only [hr] at h; cases h
      | hang => simp only [hr] at h; cases h
    | err e => simp only [hc] at h; cases h
    | hang => simp only [hc] at h; cases h

theorem chainFrom_head : ∀ {cs : List CAChunk} {off : Int}, chainFrom off cs →
    ∀ hne : cs ≠ [], (cs.head hne).offset = off := by
  intro cs off h hne
  cases cs with
  | nil => exact absurd rfl hne
  | cons c cs => exact h.1

theorem chainFrom_chain : ∀ (cs : List CAChunk) (off : Int), chainFrom off cs →
    List.Chain' (fun a c => c.offset = a.offset + a.length) cs
  | [], _, _ => List.chain'_nil
  | [_], _, _ => List.chain'_singleton _
  | c :: d :: ds, off, h => by
    rw [List.chain'_cons]
    exact ⟨by rw [h.2.1, h.1], chainFrom_chain (d :: ds) (off + c.length) h.2⟩

theorem chainFrom_sum : ∀ (cs : List CAChunk) (off : Int), chainFrom off cs →
    ∀ hne : cs ≠ [],
    (cs.map CAChunk.length).sum = (cs.getLast hne).offset + (cs.getLast hne).length - off
  | [], _, _, hne => absurd rfl hne
  | [c], off, h, _ => by
    simp only [List.map_cons, List.map_nil, List.sum_cons, List.sum_nil, List.getLast_singleton]
    rw [h.1]
    ring
  | c :: d :: ds, off, h, _ => by
    have hrec := chainFrom_sum (d :: ds) (off + c.length) h.2 (by simp)
    simp only [List.map_cons, List.sum_cons] at hrec ⊢
    rw [List.getLast_cons (by simp)]
    omega

theorem chainFrom_mono : ∀ (cs : List CAChunk) (off : Int), chainFrom off cs →
    (∀ c ∈ cs, 0 < c.length) →
    List.Chain' (fun a c => a.offset < c.offset) cs
  | [], _, _, _ => List.chain'_nil
  | [_], _, _, _ => List.chain'_singleton _
  | c :: d :: ds, off, h, hpos => by
    rw [List.chain'_cons]
    constructor
    · rw [h.2.1, h.1]
      have : 0 < c.length := hpos c (by simp)
      omega
    · exact chainFrom_mono (d :: ds) (off + c.length) h.2
        (fun x hx => hpos x (List.mem_cons_of_mem _ hx))

theorem num_chunksOf_toNat (len : Nat) : (num_chunksOf len).toNat = (len - 32 - 56) / 40 := by
  unfold num_chunksOf
  rw [Int.fdiv_eq_ediv _ (by norm_num [CA_TABLE_ENTRY_LEN])]
  simp only [CA_HEADER_LEN, CA_TABLE_MIN_LEN, CA_TABLE_HEADER_LEN, CA_TABLE_ENTRY_LEN]
  omega

theorem caFormatIndex_advance {b : Cursor} {x : CaFormatIndex} {b' : Cursor}
    (h : CaFormatIndex.from_buffer b = .ok (x, b')) :
    b'.data = b.data ∧ b'.pos = b.pos + 48 ∧ b.pos + 48 ≤ b.data.length := by
  unfold CaFormatIndex.from_buffer at h
  cases hh : CAIndexHeader.from_buffer b with
  | ok p =>
    obtain ⟨hdr, b1⟩ := p
    obtain ⟨hdata1, hpos1, hle1⟩ := header_ok_advance hh
    simp only [hh] at h
    cases hrs : readStruct b1 CA_HEADER_LEN with
    | ok q =>
      obtain ⟨bs, b2⟩ := q
      obtain ⟨-, hdata2, hpos2, hle2⟩ := readStruct_ok hrs
      simp only [CA_HEADER_LEN] at hpos2 hle2
      simp only [hrs] at h
      cases h
      rw [hdata2, hdata1, hpos2, hpos1] at *
      exact ⟨rfl, by omega, by omega⟩
    | err e => simp only [hrs] at h; cases h
    | hang => simp only [hrs] at h; cases h
  | err e => simp only [hh] at h; cases h
  | hang => simp only [hh] at h; cases h

theorem caIndex_decomp {b : Cursor} {idx : CAIndex} {b' : Cursor}
    (h : CAIndex.from_buffer b = .ok (idx, b')) :
    ∃ b2 : Cursor, b2.data = b.data ∧ b2.pos = 64 ∧ 64 ≤ b.data.length ∧
      readChunks (num_chunksOf b.data.length).toNat 0 b2 = .ok (idx.chunks, b') := by
  simp only [CAIndex.from_buffer] at h
  cases h1 : CaFormatIndex.from_buffer ⟨b.data, 0⟩ with
  | ok p =>
    obtain ⟨x, b1⟩ := p
    obtain ⟨hdata1, hpos1, hle1⟩ := caFormatIndex_advance h1
    simp only [h1] at h
    cases h2 : CATableHeader.from_buffer b1 with
    | ok q =>
      obtain ⟨hdr, b2⟩ := q
      obtain ⟨hdata2, hpos2, hle2⟩ := header_ok_advance h2
      simp only [h2] at h
      cases h3 : readChunks (num_chunksOf b.data.length).toNat 0 b2 with
      | ok r =>
        obtain ⟨chunks, b3⟩ := r
        simp only [h3] at h
        cases h
        have e1 : b1.data = b.data := hdata1
        have e2 : b1.pos = 48 := by simpa using hpos1
        have e4 : b2.data = b.data := by rw [hdata2, e1]
        have e5 : b2.pos = 64 := by rw [hpos2, e2]
        have e6 : 64 ≤ b.data.length := by rw [e1, e2] at hle2; omega
        exact ⟨b2, e4, e5, e6, h3⟩
      | err e => simp only [h3] at h; cases h
      | hang => simp only [h3] at h; cases h
    | err e => simp only [h2] at h; cases h
    | hang => simp only [h2] at h; cases h
  | err e => simp only [h1] at h; cases h
  | hang => simp only [h1] at h; cases h

/-! Helper lemmas about the filename loop. -/

theorem caFilenameLoop_terminator :
    ∀ (ns : List Nat) (fuel : Nat) (acc : List Nat) (b : Cursor) (rest : List Nat),
    0 ∉ ns → acc.length + ns.length < CA_MAX_FILENAME_SIZE → ns.length < fuel →
    b.data.drop b.pos = ns ++ 0 :: rest →
    caFilenameLoop fuel b acc = .ok (acc ++ ns, ⟨b.data, b.pos + (ns.length + 1)⟩) := by
  intro ns
  induction ns with
  | nil =>
    intro fuel acc b rest hmem hcap hfuel hb
    cases fuel with
    | zero => omega
    | succ fuel =>
      have hread : b.read 1 = ([0], ⟨b.data, b.pos + 1⟩) :=
        read_of_shape (x := [0]) hb rfl
      simp only [caFilenameLoop, hread]
      rw [if_pos (by simpa using hcap)]
      simp
  | cons n ns ih =>
    intro fuel acc b rest hmem hcap hfuel hb
    cases fuel with
    | zero => omega
    | succ fuel =>
      have hread : b.read 1 = ([n], ⟨b.data, b.pos + 1⟩) :=
        read_of_shape (x := [n]) hb rfl
      have hn : ¬ (n = 0) := fun h => hmem (h ▸ List.mem_cons_self n ns)
      simp only [caFilenameLoop, hread]
      rw [if_pos (by simp only [List.length_cons] at hcap; omega), if_neg hn]
      have hb' : (Cursor.mk b.data (b.pos + 1)).data.drop (Cursor.mk b.data (b.pos + 1)).pos
          = ns ++ 0 :: rest := drop_of_shape (x := [n]) hb rfl
      rw [ih fuel (acc ++ [n]) ⟨b.data, b.pos + 1⟩ rest
        (fun hx => hmem (List.mem_cons_of_mem n hx))
        (by simp only [List.length_append, List.length_cons, List.length_nil] at hcap ⊢; omega)
        (by simp only [List.length_cons] at hfuel; omega) hb']
      simp only [List.append_assoc, List.singleton_append, List.length_cons]
      have harith : b.pos + 1 + (ns.length + 1) = b.pos + (ns.length + 1 + 1) := by omega
      rw [harith]

theorem caFilenameLoop_cap :
    ∀ (ns : List Nat) (fuel : Nat) (acc : List Nat) (b : Cursor) (rest : List Nat),
    0 ∉ ns → acc.length + ns.length = CA_MAX_FILENAME_SIZE → ns.length < fuel →
    b.data.drop b.pos = ns ++ rest →
    caFilenameLoop fuel b acc = .ok (acc ++ ns, ⟨b.data, b.pos + ns.length⟩) := by
  intro ns
  induction ns with
  | nil =>
    intro fuel acc b rest hmem hcap hfuel hb
    cases fuel with
    | zero => omega
    | succ fuel =>
      simp only [caFilenameLoop]
      rw [if_neg (by simp only [List.length_nil, Nat.add_zero] at hcap; omega)]
      simp
  | cons n ns ih =>
    intro fuel acc b rest hmem hcap hfuel hb
    cases fuel with
    | zero => omega
    | succ fuel =>
      have hread : b.read 1 = ([n], ⟨b.data, b.pos + 1⟩) :=
        read_of_shape (x := [n]) hb rfl
      have hn : ¬ (n = 0) := fun h => hmem (h ▸ List.mem_cons_self n ns)
      simp only [caFilenameLoop, hread]
      rw [if_pos (by simp only [List.length_cons] at hcap; omega), if_neg hn]
      have hb' : (Cursor.mk b.data (b.pos + 1)).data.drop (Cursor.mk b.data (b.pos + 1)).pos
          = ns ++ rest := drop_of_shape (x := [n]) hb rfl
      rw [ih fuel (acc ++ [n]) ⟨b.data, b.pos + 1⟩ rest
        (fun hx => hmem (List.mem_cons_of_mem n hx))
        (by simp only [List.length_append, List.length_cons, List.length_nil] at hcap ⊢; omega)
        (by simp only [List.length_cons] at hfuel; omega) hb']
      simp only [List.append_assoc, List.singleton_append, List.length_cons]
      have harith : b.pos + 1 + ns.length = b.pos + (ns.length + 1) := by omega
      rw [harith]

/-! Claim theorems. -/

/-- C1, counterexample: the claim says a 16-byte header whose magic is the
reserved tail marker 0xe75b9e112f17417 makes the header decoder return
"none" in every expected-magic context.  On the code it does not: the
decoder only special-cases `CA_FORMAT_GOODBYE`, so the tail marker trips
the magic assertion (`UnexpectedMagic`) in all five contexts. -/
theorem c1_tail_marker_counterexample :
    MagicCAFormatHeader.from_buffer CA_FORMAT_INDEX ⟨tailHdrBuf, 0⟩ = .err .UnexpectedMagic
    ∧ MagicCAFormatHeader.from_buffer CA_FORMAT_TABLE ⟨tailHdrBuf, 0⟩ = .err .UnexpectedMagic
    ∧ MagicCAFormatHeader.from_buffer CA_FORMAT_ENTRY ⟨tailHdrBuf, 0⟩ = .err .UnexpectedMagic
    ∧ MagicCAFormatHeader.from_buffer CA_FORMAT_FILENAME ⟨tailHdrBuf, 0⟩ = .err .UnexpectedMagic
    ∧ MagicCAFormatHeader.from_buffer CA_FORMAT_PAYLOAD ⟨tailHdrBuf, 0⟩ = .err .UnexpectedMagic := by
  decide

/-- C1, amended: in every expected-magic context the header decoder
returns the "no more records" signal ("none") exactly for the goodbye
magic 0xdfd35c5e8327c403; the tail value 0xe75b9e112f17417 is not
recognized as terminal and yields `UnexpectedMagic` in every context
whose expected magic differs from it. -/
theorem c1_goodbye_only_terminal (E L : Nat) (rest : List Nat) (b : Cursor)
    (hL : L < 2 ^ 64) :
    (b.data.drop b.pos = le64 L ++ le64 CA_FORMAT_GOODBYE ++ rest →
      MagicCAFormatHeader.from_buffer E b = .ok (none, ⟨b.data, b.pos + 16⟩))
    ∧ (b.data.drop b.pos = le64 L ++ le64 CA_FORMAT_TABLE_TAIL_MARKER ++ rest →
      E ≠ CA_FORMAT_TABLE_TAIL_MARKER →
      MagicCAFormatHeader.from_buffer E b = .err .UnexpectedMagic) := by
  constructor
  · intro hb
    exact header_goodbye hb hL
  · intro hb hne
    exact header_mismatch hb hL (by norm_num [CA_FORMAT_TABLE_TAIL_MARKER])
      (by norm_num [CA_FORMAT_TABLE_TAIL_MARKER, CA_FORMAT_GOODBYE]) (Ne.symm hne)

/-- Witness for `c1_goodbye_only_terminal` at two concrete 16-byte
buffers read in the entry context. -/
theorem c1_goodbye_only_terminal_witness :
    MagicCAFormatHeader.from_buffer CA_FORMAT_ENTRY ⟨goodbyeHdrBuf, 0⟩ =
      .ok (none, ⟨goodbyeHdrBuf, 16⟩)
    ∧ MagicCAFormatHeader.from_buffer CA_FORMAT_ENTRY ⟨tailHdrBuf, 0⟩ =
      .err .UnexpectedMagic :=
  ⟨(c1_goodbye_only_terminal CA_FORMAT_ENTRY 5 [] ⟨goodbyeHdrBuf, 0⟩ (by norm_num)).1
      (by decide),
   (c1_goodbye_only_terminal CA_FORMAT_ENTRY 0 [] ⟨tailHdrBuf, 0⟩ (by norm_num)).2
      (by decide) (by decide)⟩

/-- C2: a fully read 16-byte header whose magic is neither the goodbye
magic, nor the tail marker, nor the expected magic for the context makes
the header decoder fail with `UnexpectedMagic`; in the filename context
this error aborts the decode of the enclosing filename record. -/
theorem c2_unexpected_magic (E : Nat) (b b1 : Cursor) (bs : List Nat)
    (hread : b.read 16 = (bs, b1)) (hlen : bs.length = 16)
    (h1 : leU64 (bs.drop 8) ≠ CA_FORMAT_GOODBYE)
    (h2 : leU64 (bs.drop 8) ≠ CA_FORMAT_TABLE_TAIL_MARKER)
    (h3 : leU64 (bs.drop 8) ≠ E) :
    MagicCAFormatHeader.from_buffer E b = .err .UnexpectedMagic
    ∧ (E = CA_FORMAT_FILENAME → CAFilename.from_buffer b = .err .UnexpectedMagic) := by
  have hrs : readStruct b CA_TABLE_HEADER_LEN = .ok (bs, b1) := by
    simp [readStruct, CA_TABLE_HEADER_LEN, hread, hlen]
  have hh : MagicCAFormatHeader.from_buffer E b = .err .UnexpectedMagic := by
    unfold MagicCAFormatHeader.from_buffer
    simp only [hrs]
    rw [if_neg h1, if_neg h3]
  refine ⟨hh, fun hE => ?_⟩
  subst hE
  simp only [CAFilename.from_buffer, CAFilenameHeader.from_buffer, hh]

/-- Witness for `c2_unexpected_magic`: the payload magic read where the
filename magic is expected. -/
theorem c2_unexpected_magic_witness :
    MagicCAFormatHeader.from_buffer CA_FORMAT_FILENAME ⟨payloadHdrBuf, 0⟩ =
      .err .UnexpectedMagic
    ∧ CAFilename.from_buffer ⟨payloadHdrBuf, 0⟩ = .err .UnexpectedMagic := by
  have h := c2_unexpected_magic CA_FORMAT_FILENAME ⟨payloadHdrBuf, 0⟩
    ⟨payloadHdrBuf, 16⟩ payloadHdrBuf (by decide) (by decide)
    (by decide) (by decide) (by decide)
  exact ⟨h.1, h.2 rfl⟩

/-- C3: a structural header read with fewer than 16 bytes remaining
always fails with `Truncated` (never a silent zero-filled read), and the
empty reassembled stream of a zero-chunk index fails with `Truncated` at
the mandatory archive-level entry header. -/
theorem c3_truncated_header :
    (∀ (E : Nat) (b : Cursor), b.data.length - b.pos < 16 →
      MagicCAFormatHeader.from_buffer E b = .err .Truncated)
    ∧ CATar.from_bytes ⟨[], 0⟩ = .err .Truncated := by
  constructor
  · intro E b h
    exact header_short (by omega)
  · decide

/-- Witness for `c3_truncated_header` on a concrete 3-byte buffer. -/
theorem c3_truncated_header_witness :
    MagicCAFormatHeader.from_buffer CA_FORMAT_ENTRY ⟨[1, 2, 3], 0⟩ = .err .Truncated
    ∧ CATar.from_bytes ⟨[], 0⟩ = .err .Truncated :=
  ⟨c3_truncated_header.1 CA_FORMAT_ENTRY ⟨[1, 2, 3], 0⟩ (by decide),
   c3_truncated_header.2⟩

/-- C9: every successful call of the header decoder — including the
terminal goodbye case that returns "none" — leaves the underlying bytes
unchanged and advances the cursor position by exactly 16. -/
theorem c9_header_advances_16 (E : Nat) (b b' : Cursor) (r : Option CAFormatHeader)
    (h : MagicCAFormatHeader.from_buffer E b = .ok (r, b')) :
    b'.data = b.data ∧ b'.pos = b.pos + 16 :=
  ⟨(header_ok_advance h).1, (header_ok_advance h).2.1⟩

/-- Witness for `c9_header_advances_16` on the terminal (goodbye) case. -/
theorem c9_header_advances_16_witness :
    (⟨goodbyeHdrBuf, 16⟩ : Cursor).data = (⟨goodbyeHdrBuf, 0⟩ : Cursor).data
    ∧ (⟨goodbyeHdrBuf, 16⟩ : Cursor).pos = (⟨goodbyeHdrBuf, 0⟩ : Cursor).pos + 16 :=
  c9_header_advances_16 CA_FORMAT_ENTRY ⟨goodbyeHdrBuf, 0⟩ ⟨goodbyeHdrBuf, 16⟩ none
    (by decide)

/-- C10: a goodbye-magic header at an entry position does not fail and
does not stop the decode: `CAEntry.from_buffer` stores the "absent"
header and still consumes the following 48 bytes as the six metadata
fields, 64 bytes in total. -/
theorem c10_goodbye_entry_swallowed (L : Nat) (m : List Nat) (b : Cursor)
    (hb : b.data.drop b.pos = le64 L ++ le64 CA_FORMAT_GOODBYE ++ m)
    (hL : L < 2 ^ 64) (hm : 48 ≤ m.length) :
    CAEntry.from_buffer b =
      .ok (⟨none, leU64 (m.take 8), leU64 ((m.drop 8).take 8),
        leU64 ((m.drop 16).take 8), leU64 ((m.drop 24).take 8),
        leU64 ((m.drop 32).take 8), leU64 ((m.drop 40).take 8)⟩,
        ⟨b.data, b.pos + 64⟩) := by
  have hgb := header_goodbye (E := CA_FORMAT_ENTRY) hb hL
  have hbody : b.data.drop (b.pos + 16) = m :=
    drop_of_shape (x := le64 L ++ le64 CA_FORMAT_GOODBYE)
      (by rw [hb, List.append_assoc]) (by simp [le64_length])
  have hm48 : (m.take (8 * 6)).length = 8 * 6 := by
    simp only [List.length_take]
    omega
  have hsplit : (⟨b.data, b.pos + 16⟩ : Cursor).data.drop (⟨b.data, b.pos + 16⟩ : Cursor).pos
      = m.take (8 * 6) ++ m.drop (8 * 6) := by
    rw [show (⟨b.data, b.pos + 16⟩ : Cursor).data.drop (⟨b.data, b.pos + 16⟩ : Cursor).pos
        = m from hbody]
    exact (List.take_append_drop (8 * 6) m).symm
  have hrs : readStruct (⟨b.data, b.pos + 16⟩ : Cursor) (8 * 6) =
      .ok (m.take (8 * 6), ⟨b.data, b.pos + 16 + 8 * 6⟩) :=
    readStruct_of_shape hsplit hm48
  simp only [CAEntry.from_buffer, CAEntryHeader.from_buffer, hgb, hrs]
  have harith : b.pos + 16 + 8 * 6 = b.pos + 64 := by omega
  rw [harith]
  norm_num [List.take_take, List.drop_take]

/-- Witness for `c10_goodbye_entry_swallowed` on a concrete 64-byte
buffer whose metadata fields encode 1..6. -/
theorem c10_goodbye_entry_swallowed_witness :
    CAEntry.from_buffer ⟨entryGoodbyeBuf, 0⟩ =
      .ok (⟨none, 1, 2, 3, 4, 5, 6⟩, ⟨entryGoodbyeBuf, 64⟩) := by
  have h := c10_goodbye_entry_swallowed 0
    (le64 1 ++ (le64 2 ++ (le64 3 ++ (le64 4 ++ (le64 5 ++ le64 6)))))
    ⟨entryGoodbyeBuf, 0⟩ (by decide) (by decide) (by decide)
  rw [h]
  decide

/-! Further helper lemmas used by the remaining claims. -/

theorem reassemble_length (resolve : CAChunk → List Nat) :
    ∀ chunks : List CAChunk,
    (∀ c ∈ chunks, ((resolve c).length : Int) = c.length) →
    ((reassemble resolve chunks).length : Int) = (chunks.map CAChunk.length).sum
  | [], _ => by simp [reassemble]
  | c :: cs, hres => by
    have h2 := reassemble_length resolve cs
      (fun x hx => hres x (List.mem_cons_of_mem c hx))
    have h1 := hres c (List.mem_cons_self c cs)
    simp only [reassemble, List.map_cons, List.flatten_cons, List.length_append,
      List.sum_cons] at h2 ⊢
    push_cast at h2 ⊢
    omega

theorem caFilename_shape {L : Nat} {body name : List Nat} {k : Nat} {b : Cursor}
    (hb : b.data.drop b.pos = le64 L ++ le64 CA_FORMAT_FILENAME ++ body)
    (hL : L < 2 ^ 64)
    (hloop : caFilenameLoop (CA_MAX_FILENAME_SIZE + 1) ⟨b.data, b.pos + 16⟩ [] =
      .ok (name, ⟨b.data, b.pos + 16 + k⟩))
    (hvalid : utf8Valid name = true) :
    CAFilename.from_buffer b =
      .ok (some ⟨⟨L, CA_FORMAT_FILENAME⟩, name⟩, ⟨b.data, b.pos + 16 + k⟩) := by
  have hm := header_match (E := CA_FORMAT_FILENAME) hb hL
    (by norm_num [CA_FORMAT_FILENAME])
    (by norm_num [CA_FORMAT_FILENAME, CA_FORMAT_GOODBYE])
  simp only [CAFilename.from_buffer, CAFilenameHeader.from_buffer, hm, hloop, hvalid,
    if_true]

theorem caFilename_body {L : Nat} {body : List Nat} {b : Cursor}
    (hb : b.data.drop b.pos = le64 L ++ le64 CA_FORMAT_FILENAME ++ body) :
    b.data.drop (b.pos + 16) = body :=
  drop_of_shape (x := le64 L ++ le64 CA_FORMAT_FILENAME)
    (by rw [hb, List.append_assoc]) (by simp [le64_length])

/-- C4, counterexample: the index decoder accepts a buffer whose two
table entries both carry cumulative offset 0, producing descriptors with
offsets 0, 0 — so the offsets of an accepted index are not always
strictly increasing, contrary to the claim. -/
theorem c4_strict_increase_counterexample :
    CAIndex.from_buffer ⟨idxBufBad, 0⟩ =
      .ok (⟨[⟨sha0, 0, 0⟩, ⟨sha0, 0, 0⟩]⟩, ⟨idxBufBad, 144⟩)
    ∧ ¬ List.Chain' (fun a c => a.offset < c.offset)
        [(⟨sha0, 0, 0⟩ : CAChunk), ⟨sha0, 0, 0⟩] := by
  constructor
  · decide
  · simp [List.chain'_cons]

/-- C4, amended: every accepted index yields descriptors that start at
offset 0, are contiguous (`offset_{i+1} = offset_i + length_i`), and
whose lengths sum to the final cumulative offset; the offsets are
strictly increasing only under the extra premise that every decoded
length is positive (the decoder itself never checks this). -/
theorem c4_descriptor_invariants (b : Cursor) (idx : CAIndex) (b' : Cursor)
    (h : CAIndex.from_buffer b = .ok (idx, b')) :
    (∀ hne : idx.chunks ≠ [], (idx.chunks.head hne).offset = 0)
    ∧ List.Chain' (fun a c => c.offset = a.offset + a.length) idx.chunks
    ∧ (∀ hne : idx.chunks ≠ [],
        (idx.chunks.map CAChunk.length).sum =
          (idx.chunks.getLast hne).offset + (idx.chunks.getLast hne).length)
    ∧ ((∀ c ∈ idx.chunks, 0 < c.length) →
        List.Chain' (fun a c => a.offset < c.offset) idx.chunks) := by
  obtain ⟨b2, -, -, -, hrc⟩ := caIndex_decomp h
  have hch := readChunks_chain _ _ _ _ _ hrc
  refine ⟨chainFrom_head hch, chainFrom_chain _ _ hch, ?_, chainFrom_mono _ _ hch⟩
  intro hne
  have hs := chainFrom_sum _ _ hch hne
  omega

/-- Witness for `c4_descriptor_invariants` on the two-chunk index buffer
`idxBufGood`. -/
theorem c4_descriptor_invariants_witness :
    (∀ hne : chunksGood ≠ [], (chunksGood.head hne).offset = 0)
    ∧ List.Chain' (fun a c => c.offset = a.offset + a.length) chunksGood
    ∧ (∀ hne : chunksGood ≠ [],
        (chunksGood.map CAChunk.length).sum =
          (chunksGood.getLast hne).offset + (chunksGood.getLast hne).length)
    ∧ ((∀ c ∈ chunksGood, 0 < c.length) →
        List.Chain' (fun a c => a.offset < c.offset) chunksGood) :=
  c4_descriptor_invariants ⟨idxBufGood, 0⟩ ⟨chunksGood⟩ ⟨idxBufGood, 144⟩ (by decide)

/-- C5: an accepted index buffer yields exactly
`(total_length - 32 - 56) / 40` chunk entries, and the cursor ends right
after the 16+32+16 header bytes plus 40 bytes per entry — i.e. exactly
that many 40-byte entries were read after the index and table headers. -/
theorem c5_chunk_count (b : Cursor) (idx : CAIndex) (b' : Cursor)
    (h : CAIndex.from_buffer b = .ok (idx, b')) :
    idx.chunks.length = (b.data.length - 32 - 56) / 40
    ∧ b'.data = b.data
    ∧ b'.pos = (16 + 32 + 16) + 40 * idx.chunks.length := by
  obtain ⟨b2, hdata, hpos, hlen64, hrc⟩ := caIndex_decomp h
  have hspace : b2.pos + 40 * (num_chunksOf b.data.length).toNat ≤ b2.data.length := by
    rw [hpos, hdata, num_chunksOf_toNat]
    omega
  obtain ⟨hlen, hdata2, hpos2⟩ := readChunks_advance _ _ _ _ _ hspace hrc
  refine ⟨?_, by rw [hdata2, hdata], ?_⟩
  · rw [hlen, num_chunksOf_toNat]
  · rw [hpos2, hpos, hlen]

/-- Witness for `c5_chunk_count` on the 168-byte index buffer
`idxBufGood`: (168 - 32 - 56) / 40 = 2 entries, final position 144. -/
theorem c5_chunk_count_witness :
    (⟨chunksGood⟩ : CAIndex).chunks.length =
      ((⟨idxBufGood, 0⟩ : Cursor).data.length - 32 - 56) / 40
    ∧ (⟨idxBufGood, 144⟩ : Cursor).data = (⟨idxBufGood, 0⟩ : Cursor).data
    ∧ (⟨idxBufGood, 144⟩ : Cursor).pos =
      (16 + 32 + 16) + 40 * (⟨chunksGood⟩ : CAIndex).chunks.length :=
  c5_chunk_count ⟨idxBufGood, 0⟩ ⟨chunksGood⟩ ⟨idxBufGood, 144⟩ (by decide)

/-- C6, counterexample: the claim says a zero terminator at byte K < 256
always yields the K-byte name with no error.  On the code it does not:
`filename.decode("utf-8")` (format.py line 145) raises
`UnicodeDecodeError` when the collected name bytes are not valid UTF-8,
as for the single name byte 0xFF terminated by a zero byte. -/
theorem c6_invalid_utf8_counterexample :
    CAFilename.from_buffer ⟨filenameBufBad, 0⟩ = .err .UnicodeDecodeError := by
  decide

/-- C6, amended: given a validated filename header, if the name bytes
carry a zero terminator after K non-zero bytes with K < 256 and those K
bytes are valid UTF-8, the decoder returns the K-byte name before the
terminator (consuming K+1 name bytes); if 256 non-zero bytes of valid
UTF-8 are read without a terminator the 256-byte name is accepted as-is,
not truncated further, and no error is raised.  Name bytes that are not
valid UTF-8 instead raise `UnicodeDecodeError`
(`c6_invalid_utf8_counterexample`). -/
theorem c6_filename_decoding (L : Nat) (ns rest : List Nat) (b : Cursor)
    (hL : L < 2 ^ 64) (hns : 0 ∉ ns) (hvalid : utf8Valid ns = true) :
    (b.data.drop b.pos = le64 L ++ le64 CA_FORMAT_FILENAME ++ (ns ++ 0 :: rest) →
      ns.length < CA_MAX_FILENAME_SIZE →
      CAFilename.from_buffer b =
        .ok (some ⟨⟨L, CA_FORMAT_FILENAME⟩, ns⟩, ⟨b.data, b.pos + 16 + (ns.length + 1)⟩))
    ∧ (b.data.drop b.pos = le64 L ++ le64 CA_FORMAT_FILENAME ++ (ns ++ rest) →
      ns.length = CA_MAX_FILENAME_SIZE →
      CAFilename.from_buffer b =
        .ok (some ⟨⟨L, CA_FORMAT_FILENAME⟩, ns⟩, ⟨b.data, b.pos + 16 + ns.length⟩)) := by
  constructor
  · intro hb hcap
    refine caFilename_shape hb hL ?_ hvalid
    have hloop := caFilenameLoop_terminator ns (CA_MAX_FILENAME_SIZE + 1) []
      ⟨b.data, b.pos + 16⟩ rest hns (by simpa using hcap) (by omega)
      (caFilename_body hb)
    simpa using hloop
  · intro hb hcap
    refine caFilename_shape hb hL ?_ hvalid
    have hloop := caFilenameLoop_cap ns (CA_MAX_FILENAME_SIZE + 1) []
      ⟨b.data, b.pos + 16⟩ rest hns (by simpa using hcap) (by omega)
      (caFilename_body hb)
    simpa using hloop

/-- Witness for `c6_filename_decoding`: the name "ab" terminated by a
zero byte, and a 256-byte name with no terminator, both valid UTF-8. -/
theorem c6_filename_decoding_witness :
    CAFilename.from_buffer ⟨filenameBufTerm, 0⟩ =
      .ok (some ⟨⟨0, CA_FORMAT_FILENAME⟩, [97, 98]⟩, ⟨filenameBufTerm, 19⟩)
    ∧ CAFilename.from_buffer ⟨filenameBufCap, 0⟩ =
      .ok (some ⟨⟨0, CA_FORMAT_FILENAME⟩, List.replicate 256 97⟩, ⟨filenameBufCap, 272⟩) :=
  ⟨(c6_filename_decoding 0 [97, 98] [7, 7] ⟨filenameBufTerm, 0⟩ (by norm_num)
      (by decide) (by decide)).1 (by decide) (by decide),
   (c6_filename_decoding 0 (List.replicate 256 97) [7] ⟨filenameBufCap, 0⟩ (by norm_num)
      (by decide) (by decide)).2 (by decide) (by decide)⟩

/-- C7: reassembly is the in-order concatenation of one `resolve` result
per chunk descriptor, and when `resolve` returns exactly `length` bytes
for each descriptor the reassembled stream's length is the sum of all
descriptor lengths. -/
theorem c7_reassemble_length (resolve : CAChunk → List Nat) (chunks : List CAChunk)
    (hres : ∀ c ∈ chunks, ((resolve c).length : Int) = c.length) :
    reassemble resolve chunks = (chunks.map resolve).flatten
    ∧ ((reassemble resolve chunks).length : Int) = (chunks.map CAChunk.length).sum :=
  ⟨rfl, reassemble_length resolve chunks hres⟩

/-- Witness for `c7_reassemble_length` on the two-chunk list
`chunksGood` with a resolver returning the declared lengths. -/
theorem c7_reassemble_length_witness :
    reassemble resolveFill chunksGood = (chunksGood.map resolveFill).flatten
    ∧ ((reassemble resolveFill chunksGood).length : Int) =
      (chunksGood.map CAChunk.length).sum :=
  c7_reassemble_length resolveFill chunksGood (by decide)

/-- C8, counterexample: `CAFile.from_bytes` succeeds on a record whose
payload header declares `size = 100` (so 84 data bytes) even though only
5 bytes follow; the resulting record's data field holds 5 bytes, not
`payload_header.length - 16`, because the plain `b.read` silently
truncates at end of buffer. -/
theorem c8_short_data_counterexample :
    CAFile.from_bytes ⟨fileBufShort, 0⟩ =
      .ok (some ⟨⟨⟨0, CA_FORMAT_FILENAME⟩, [97]⟩, [1, 2, 3, 4, 5]⟩, ⟨fileBufShort, 103⟩)
    ∧ ([1, 2, 3, 4, 5] : List Nat).length ≠ 100 - 16 := by
  constructor
  · decide
  · decide

/-- C8, amended: if at least `payload.size - 16` bytes remain after the
validated payload header (and `payload.size ≥ 16`), the decoded file
record's data field holds exactly `payload.size - 16` bytes read
immediately after the payload header; without that premise the data
field is silently truncated to the remaining bytes. -/
theorem c8_payload_data_length (b b1 b2 b3 : Cursor) (fn : CAFilename)
    (ar : CAArchive) (payload : CAFormatHeader)
    (h1 : CAFilename.from_buffer b = .ok (some fn, b1))
    (h2 : CAArchive.from_buffer b1 = .ok (ar, b2))
    (h3 : CAPayloadHeader.from_buffer b2 = .ok (some payload, b3))
    (h4 : 16 ≤ payload.size)
    (h5 : payload.size - 16 ≤ b3.data.length - b3.pos) :
    CAFile.from_bytes b =
      .ok (some ⟨fn, (b3.data.drop b3.pos).take (payload.size - 16)⟩,
        ⟨b3.data, b3.pos + (payload.size - 16)⟩)
    ∧ ((b3.data.drop b3.pos).take (payload.size - 16)).length = payload.size - 16 := by
  have hlen : ((b3.data.drop b3.pos).take (payload.size - 16)).length =
      payload.size - 16 := by
    simp only [List.length_take, List.length_drop]
    omega
  refine ⟨?_, hlen⟩
  simp only [CAFile.from_bytes, h1, h2, h3]
  rw [if_neg (by omega)]
  simp only [Cursor.read, hlen]

/-- Witness for `c8_payload_data_length` on a record declaring
`size = 21` followed by exactly 5 data bytes. -/
theorem c8_payload_data_length_witness :
    CAFile.from_bytes ⟨fileBufExact, 0⟩ =
      .ok (some ⟨⟨⟨0, CA_FORMAT_FILENAME⟩, [97]⟩, (fileBufExact.drop 98).take (21 - 16)⟩,
        ⟨fileBufExact, 98 + (21 - 16)⟩)
    ∧ ((fileBufExact.drop 98).take (21 - 16)).length = 21 - 16 :=
  c8_payload_data_length ⟨fileBufExact, 0⟩ ⟨fileBufExact, 18⟩ ⟨fileBufExact, 82⟩
    ⟨fileBufExact, 98⟩ ⟨⟨0, CA_FORMAT_FILENAME⟩, [97]⟩
    ⟨⟨some ⟨0, CA_FORMAT_ENTRY⟩, 0, 0, 0, 0, 0, 0⟩⟩ ⟨21, CA_FORMAT_PAYLOAD⟩
    (by decide) (by decide) (by decide) (by decide) (by decide)
